import Mathlib

/-!
Formal model of the query-understanding and result-ranking pipeline of the
spreadsheet-brain backend (files `backend/utils.py`, `backend/tagging.py`,
`backend/query_processor.py`, `backend/main.py`), together with proofs of the
specification claims about it.

Modelling conventions:
* Python strings are Lean `String`; all string primitives used by the code
  (lower, upper, substring containment, replace, startswith) are reimplemented
  structurally over `String.data` so that concrete instances reduce.
* Python regular-expression search (the `re` module) is an external collaborator
  and is modelled as an oracle parameter `research : String → String → Bool`
  (pattern, text); claims about the surrounding logic are proved for every
  oracle.  The one regex evaluated concretely is the fixed formula-function
  whitelist of `extract_formula_info`, for which a faithful scanner is defined.
* Python `list(set(xs))` has an unspecified enumeration order; it is modelled as
  an oracle `f : List String → List String` constrained by `IsPySetList`
  (no duplicates, same membership).
* Similarity scores are modelled as `ℚ` (a linear order, matching the
  distance-like floats of the vector store); Python `dict` is modelled as an
  insertion-ordered association list.
-/

/-! ### Python string primitives -/

/-- Python `str.lower()` (ASCII data in this code base). -/
def pyLower (s : String) : String := String.mk (s.data.map Char.toLower)

/-- Python `str.upper()` (ASCII data in this code base). -/
def pyUpper (s : String) : String := String.mk (s.data.map Char.toUpper)

/-- Helper for Python substring containment, structural over the haystack. -/
def listContainsSub (needle : List Char) : List Char → Bool
  | [] => needle.isEmpty
  | c :: rest => needle.isPrefixOf (c :: rest) || listContainsSub needle rest

/-- Python `needle in hay` on strings (substring containment). -/
def strContains (hay needle : String) : Bool := listContainsSub needle.data hay.data

/-- Python `s.startswith(pre)`. -/
def pyStartsWith (s pre : String) : Bool := pre.data.isPrefixOf s.data

/-- Python `s.endswith(suf)`. -/
def pyEndsWith (s suf : String) : Bool := suf.data.isSuffixOf s.data

/-- Fuelled worker for Python `str.replace`: replaces non-overlapping
occurrences left to right.  The fuel is the length of the subject string, which
suffices for every non-empty pattern (every pattern passed by this code base is
a non-empty lexicon term). -/
def pyReplaceGo : Nat → List Char → List Char → List Char → List Char
  | 0, s, _, _ => s
  | _ + 1, [], _, _ => []
  | fuel + 1, c :: rest, old, new =>
    if old.isPrefixOf (c :: rest) then
      new ++ pyReplaceGo fuel (List.drop old.length (c :: rest)) old new
    else
      c :: pyReplaceGo fuel rest old new

/-- Python `s.replace(old, new)` for non-empty `old`. -/
def pyReplace (s old new : String) : String :=
  String.mk (pyReplaceGo (s.data.length + 1) s.data old.data new.data)

/-- Python `", ".join(xs)`-style joining. -/
def pyJoin (sep : String) : List String → String
  | [] => ""
  | [x] => x
  | x :: y :: rest => x ++ sep ++ pyJoin sep (y :: rest)

/-- Python `round(x, 3)`: round half to even at three decimal places, idealised
over `ℚ`. -/
def pyRound3 (q : ℚ) : ℚ :=
  let y := q * 1000
  let n := Rat.floor y
  let f := y - n
  let r : ℤ :=
    if f < 1 / 2 then n
    else if 1 / 2 < f then n + 1
    else if n % 2 = 0 then n else n + 1
  (r : ℚ) / 1000

/-! ### `utils.detect_column_types`

A pandas column is modelled by its dtype-determined shape: an object (string)
column, a numeric (`float64`/`int64`) column, or anything else.  `None`/`NaN`
cells are `Option.none`; `dropna()` is `filterMap id`. -/

inductive PdCol where
  | objCol (vals : List (Option String))
  | numCol (vals : List (Option ℚ))
  | otherCol
deriving DecidableEq

/-- pandas `Series.str.contains("$")` treats its argument as a regular
expression.  The pattern consisting of the single end-anchor character matches
the empty suffix of every string, so every sampled value tests true; the
rendered text of the numeric value is therefore irrelevant and not modelled. -/
def strContainsDollarRegex (_s : String) : Bool := true

/-- One column of `utils.detect_column_types` (lines 20-60 of `utils.py`). -/
def detectColumnType (name : String) (col : PdCol) : String :=
  let nl := pyLower name
  match col with
  | .objCol vals =>
    let sample := vals.filterMap id
    let percentageValues := sample.countP (fun s => strContains s "%")
    let mostlyPercentages := decide (2 * percentageValues > sample.length)
    if (strContains nl "percent" || strContains nl "margin" || strContains nl "growth"
          || strContains nl "rate" || pyEndsWith nl "%") && mostlyPercentages then
      "percentage"
    else if strContains nl "date" || strContains nl "year" || strContains nl "month"
          || strContains nl "quarter" then
      "date"
    else if sample.any (fun s => strContains s "=") then
      "formula"
    else
      "categorical"
  | .numCol vals =>
    let nonNull := vals.filterMap id
    -- pandas max()/min() of an empty (all-null) column is NaN and every
    -- comparison with NaN is false, hence the non-emptiness conjunct.
    let maxLeOne := !nonNull.isEmpty && nonNull.all (fun v => v ≤ 1)
    let minGeZero := !nonNull.isEmpty && nonNull.all (fun v => 0 ≤ v)
    if (maxLeOne && minGeZero) || strContains nl "percent" then
      "percentage"
    else if strContains nl "amount" || strContains nl "price" || strContains nl "cost"
          || strContains nl "revenue" || strContains nl "income" || strContains nl "profit"
          || strContains nl "expense"
          || (nonNull.map (fun _ => "")).any strContainsDollarRegex then
      "currency"
    else if strContains nl "ratio" || strContains nl "turnover" || strContains nl "roi"
          || strContains nl "roe" then
      "ratio"
    else
      "numeric"
  | .otherCol => "text"

/-- `utils.detect_column_types`: classify every column of the frame. -/
def detect_column_types (df : List (String × PdCol)) : List (String × String) :=
  df.map (fun p => (p.1, detectColumnType p.1 p.2))

/-! ### `utils.extract_formula_info` -/

/-- A Python cell value as far as `extract_formula_info` inspects it: either a
string or some non-string value. -/
inductive PyCellValue where
  | str (s : String)
  | nonStr
deriving DecidableEq

/-- The dict built by `extract_formula_info`; a key absent from the dict is
`none`. -/
structure FormulaDict where
  raw_formula : Option String := none
  functions : Option (List String) := none
  operations : Option (List String) := none
deriving DecidableEq

/-- Python truthiness of the dict: empty iff no key was set. -/
def FormulaDict.isEmpty (d : FormulaDict) : Bool :=
  d.raw_formula.isNone && d.functions.isNone && d.operations.isNone

/-- Word character of Python `re` (`[A-Za-z0-9_]`). -/
def isWordChar (c : Char) : Bool := c.isAlphanum || c = '_'

/-- A word boundary holds after a match iff the next character is absent or a
non-word character. -/
def boundaryAfter : List Char → Bool
  | [] => true
  | c :: _ => !isWordChar c

/-- Try the alternation at the current position: the first alternative (in
pattern order) that is a prefix and is followed by a word boundary wins,
replicating the backtracking of the regex alternation with a trailing b-anchor. -/
def matchAltHere (alts : List String) (s : List Char) : Option String :=
  alts.findSome? (fun alt =>
    if alt.data.isPrefixOf s && boundaryAfter (s.drop alt.data.length) then some alt
    else none)

/-- Fuelled scanner for `re.findall` of a word-bounded alternation of literal
words: scan left to right, matching only at positions preceded by a non-word
character (or the start), continuing after each non-overlapping match.  The
fuel is the length of the subject, which suffices because every alternative is
non-empty. -/
def findallWordAlts (alts : List String) : Nat → Bool → List Char → List String
  | 0, _, _ => []
  | _ + 1, _, [] => []
  | fuel + 1, prevWord, c :: rest =>
    if prevWord then
      findallWordAlts alts fuel (isWordChar c) rest
    else
      match matchAltHere alts (c :: rest) with
      | some alt => alt :: findallWordAlts alts fuel true ((c :: rest).drop alt.data.length)
      | none => findallWordAlts alts fuel (isWordChar c) rest

/-- The alternation of the fixed whitelist regex of `extract_formula_info`, in
pattern order. -/
def FORMULA_FUNCTION_ALTS : List String :=
  ["SUM", "AVERAGE", "COUNT", "IF", "VLOOKUP", "INDEX", "MATCH", "SUMIF", "COUNTIF"]

/-- `re.findall` of the whitelist pattern over a string. -/
def reFindallFunctions (s : String) : List String :=
  findallWordAlts FORMULA_FUNCTION_ALTS (s.data.length + 1) false s.data

/-- `utils.extract_formula_info` (lines 65-91 of `utils.py`). -/
def extract_formula_info (value : PyCellValue) : FormulaDict :=
  match value with
  | .nonStr => {}
  | .str s =>
    if !pyStartsWith s "=" then {}
    else
      let functions := reFindallFunctions (pyUpper s)
      let operations :=
        (if strContains s "+" then ["addition"] else [])
          ++ (if strContains s "-" then ["subtraction"] else [])
          ++ (if strContains s "*" then ["multiplication"] else [])
          ++ (if strContains s "/" then ["division"] else [])
      { raw_formula := some s
        functions := if functions.isEmpty then none else some functions
        operations := if operations.isEmpty then none else some operations }

/-! ### `tagging.py`: lexicon tables -/

/-- One entry of `BUSINESS_TERMS`: a concept with primary terms, synonyms and
regex patterns. -/
structure ConceptTerms where
  concept : String
  primary : List String
  synonyms : List String
  patterns : List String
deriving DecidableEq

/-- The `BUSINESS_TERMS` table of `tagging.py`, in declaration order. -/
def BUSINESS_TERMS : List ConceptTerms := [
  { concept := "profitability"
    primary := ["profit", "margin", "ebitda", "ebit", "earnings", "net income", "operating income"]
    synonyms := ["bottom line", "profitability", "margins", "net profit", "gross profit", "operating profit"]
    patterns := ["\\bprofit\\b", "\\bmargin\\b", "\\bearnings\\b", "\\bebitda\\b"] },
  { concept := "revenue"
    primary := ["revenue", "sales", "income", "receipts", "turnover"]
    synonyms := ["top line", "gross sales", "net sales", "total sales", "sales revenue"]
    patterns := ["\\brevenue\\b", "\\bsales\\b", "\\bincome\\b", "\\bturnover\\b"] },
  { concept := "cost"
    primary := ["cost", "expense", "expenditure", "overhead", "opex", "capex"]
    synonyms := ["costs", "expenses", "spending", "outlay", "outgoing", "cogs"]
    patterns := ["\\bcost\\b", "\\bexpense\\b", "\\boverhead\\b", "\\bcogs\\b"] },
  { concept := "growth"
    primary := ["growth", "increase", "expansion", "rise"]
    synonyms := ["yoy", "qoq", "mom", "cagr", "change", "variance", "delta"]
    patterns := ["\\bgrowth\\b", "\\byoy\\b", "\\bqoq\\b", "\\bcagr\\b", "%\\s*change"] },
  { concept := "efficiency"
    primary := ["efficiency", "productivity", "utilization", "performance"]
    synonyms := ["roi", "roe", "roa", "roic", "turnover", "ratio", "yield"]
    patterns := ["\\broi\\b", "\\broe\\b", "\\broa\\b", "\\bturnover\\b", "\\bratio\\b"] },
  { concept := "liquidity"
    primary := ["cash", "liquidity", "working capital", "current ratio"]
    synonyms := ["cash flow", "liquid assets", "quick ratio", "cash position"]
    patterns := ["\\bcash\\b", "\\bliquidity\\b", "working\\s+capital"] },
  { concept := "leverage"
    primary := ["debt", "leverage", "liability", "borrowing"]
    synonyms := ["debt ratio", "debt to equity", "gearing", "financial leverage"]
    patterns := ["\\bdebt\\b", "\\bleverage\\b", "debt\\s+to\\s+equity"] },
  { concept := "investment"
    primary := ["investment", "asset", "portfolio", "securities", "stocks", "bonds"]
    synonyms := ["holdings", "investments", "capital allocation", "investment portfolio"]
    patterns := ["\\binvestment\\b", "\\basset\\b", "\\bportfolio\\b", "\\bsecurities\\b"] },
  { concept := "budgeting"
    primary := ["budget", "forecast", "plan", "target", "allocation"]
    synonyms := ["budgeted", "planned", "projected", "estimated", "allocated"]
    patterns := ["\\bbudget\\b", "\\bforecast\\b", "\\bplan\\b", "\\btarget\\b"] },
  { concept := "variance"
    primary := ["variance", "deviation", "difference", "gap", "variance analysis"]
    synonyms := ["vs actual", "over budget", "under budget", "favorable", "unfavorable"]
    patterns := ["\\bvariance\\b", "\\bdeviation\\b", "\\bvs\\s+actual\\b", "\\bover\\s+budget\\b"] },
  { concept := "valuation"
    primary := ["valuation", "value", "worth", "market cap", "enterprise value"]
    synonyms := ["fair value", "market value", "book value", "intrinsic value"]
    patterns := ["\\bvaluation\\b", "\\bmarket\\s+cap\\b", "\\benterprise\\s+value\\b"] },
  { concept := "tax"
    primary := ["tax", "taxes", "tax expense", "tax rate", "tax burden"]
    synonyms := ["taxation", "tax liability", "tax benefit", "deferred tax"]
    patterns := ["\\btax\\b", "\\btaxes\\b", "\\btax\\s+expense\\b", "\\btax\\s+rate\\b"] }]

/-- The `FORMULA_FUNCTIONS` taxonomy of `tagging.py`. -/
def FORMULA_FUNCTIONS : List (String × List String) := [
  ("aggregation", ["sum", "average", "count", "max", "min", "median"]),
  ("lookup", ["vlookup", "hlookup", "index", "match", "xlookup"]),
  ("conditional", ["if", "sumif", "countif", "averageif", "sumifs", "countifs"]),
  ("mathematical", ["round", "abs", "sqrt", "power", "log"]),
  ("text", ["concatenate", "left", "right", "mid", "len", "trim"]),
  ("date", ["today", "now", "year", "month", "day", "date"])]

/-- The `CONTEXT_PATTERNS` table of `tagging.py`. -/
def CONTEXT_PATTERNS : List (String × List String) := [
  ("time_series", ["\\b(q[1-4]|quarter|yr\\d+|year|monthly|annual)\\b"]),
  ("percentage", ["%|percent|margin|rate|ratio"]),
  ("currency", ["\\$|revenue|cost|profit|expense|price|value"]),
  ("comparative", ["\\bvs\\b|versus|compared|budget|actual|forecast|target"])]

/-- One entry of `FINANCIAL_INTENT_PATTERNS`. -/
structure IntentPatterns where
  intent : String
  patterns : List String
  keywords : List String
deriving DecidableEq

/-- The `FINANCIAL_INTENT_PATTERNS` table of `tagging.py`, in declaration
order. -/
def FINANCIAL_INTENT_PATTERNS : List IntentPatterns := [
  { intent := "spending_analysis"
    patterns := ["\\b(total|sum|amount)\\s+(spent|expenses?|costs?)\\b",
                 "\\bhow\\s+much\\s+(did\\s+i\\s+spend|spent|spending)\\b",
                 "\\bspending\\s+(analysis|breakdown|summary)\\b",
                 "\\bexpense\\s+(report|analysis|breakdown)\\b"]
    keywords := ["spent", "spending", "expenses", "expenditure", "outflow"] },
  { intent := "budgeting"
    patterns := ["\\b(budget|budgeted|planned)\\s+(vs|versus|compared\\s+to)\\s+(actual|spent)\\b",
                 "\\b(over|under)\\s+budget\\b",
                 "\\bbudget\\s+(variance|analysis|tracking)\\b",
                 "\\bhow\\s+much\\s+(left|remaining)\\s+in\\s+budget\\b"]
    keywords := ["budget", "planned", "allocated", "forecast", "target"] },
  { intent := "trend_analysis"
    patterns := ["\\b(trend|trends|trending|pattern)\\b",
                 "\\b(over\\s+time|monthly|quarterly|yearly)\\b",
                 "\\b(increase|decrease|growth|decline)\\s+(over|in)\\b",
                 "\\b(compare|comparison)\\s+(months|quarters|years)\\b"]
    keywords := ["trend", "growth", "change", "increase", "decrease", "pattern"] },
  { intent := "category_analysis"
    patterns := ["\\b(category|categories|type|types)\\s+(breakdown|analysis|summary)\\b",
                 "\\bspending\\s+by\\s+category\\b",
                 "\\bhow\\s+much\\s+(on|for)\\s+\\w+\\b",
                 "\\b(most|least)\\s+expensive\\s+category\\b"]
    keywords := ["category", "type", "classification", "breakdown"] },
  { intent := "transaction_search"
    patterns := ["\\b(find|show|search)\\s+(transactions?|payments?|purchases?)\\b",
                 "\\btransactions?\\s+(for|from|to|with)\\b",
                 "\\b(payments?|purchases?)\\s+(made|to|from)\\b",
                 "\\b(specific|particular)\\s+transaction\\b"]
    keywords := ["transaction", "payment", "purchase", "transfer", "charge"] },
  { intent := "comparison"
    patterns := ["\\b(compare|comparison|vs|versus)\\b",
                 "\\b(higher|lower|more|less)\\s+than\\b",
                 "\\b(best|worst|highest|lowest)\\b",
                 "\\b(month|quarter|year)\\s+over\\s+(month|quarter|year)\\b"]
    keywords := ["compare", "versus", "higher", "lower", "best", "worst"] }]

/-- The compound-term table of `tagging.extract_business_synonyms`. -/
def COMPOUND_TERMS : List (String × String) := [
  ("gross profit", "profitability"),
  ("net profit", "profitability"),
  ("operating profit", "profitability"),
  ("profit margin", "profitability"),
  ("gross margin", "profitability"),
  ("net margin", "profitability"),
  ("total revenue", "revenue"),
  ("net revenue", "revenue"),
  ("sales revenue", "revenue"),
  ("operating expense", "cost"),
  ("cost of goods sold", "cost"),
  ("return on investment", "efficiency"),
  ("return on equity", "efficiency"),
  ("working capital", "liquidity"),
  ("cash flow", "liquidity")]

/-! ### `tagging.py`: functions -/

/-- `tagging.classify_by_formula` (lines 202-225 of `tagging.py`). -/
def classify_by_formula (formula_info : FormulaDict) : List String :=
  if formula_info.isEmpty then []
  else
    let functions := formula_info.functions.getD []
    let operations := formula_info.operations.getD []
    let funcCats := FORMULA_FUNCTIONS.foldl (fun acc p =>
      if p.2.any (fun func => (functions.map pyLower).contains (pyLower func)) then
        acc ++ ["formula_" ++ p.1]
      else acc) []
    let cats1 := if operations.contains "division" then funcCats ++ ["ratio_calculation"] else funcCats
    let cats2 := if operations.contains "subtraction" then cats1 ++ ["variance_calculation"] else cats1
    if operations.contains "multiplication" then cats2 ++ ["scaling_calculation"] else cats2

/-- `tagging.extract_business_synonyms`.  The source builds a Python `set`;
it is modelled as a duplicate-free list in table order, which is immaterial
because the only consumer (`classify_metric`) feeds the result into another
set before returning. -/
def extract_business_synonyms (text : String) : List String :=
  let tl := pyLower text
  COMPOUND_TERMS.foldl (fun acc p =>
    if strContains tl p.1 && !acc.contains p.2 then acc ++ [p.2] else acc) []

/-- Admissible model of Python `list(set(xs))`: some duplicate-free enumeration
of the elements of `xs`, in an order the language does not specify. -/
def IsPySetList (f : List String → List String) : Prop :=
  ∀ l : List String, (f l).Nodup ∧ ∀ x : String, x ∈ f l ↔ x ∈ l

/-- `tagging.classify_metric` (lines 228-275 of `tagging.py`).  `research`
models `re.search` (the `IGNORECASE` flag of the context patterns is absorbed
by the oracle); `setOrder` models the final `list(set(categories))`. -/
def classify_metric (research : String → String → Bool)
    (setOrder : List String → List String) (row_text : String)
    (formula_info : FormulaDict) (column_types : List (String × String)) : List String :=
  let text := pyLower row_text
  let cats1 := BUSINESS_TERMS.foldl (fun acc ct =>
    if ct.primary.any (fun t => strContains text t) then acc ++ [ct.concept]
    else if ct.synonyms.any (fun t => strContains text t) then acc ++ [ct.concept]
    else if ct.patterns.any (fun p => research p text) then acc ++ [ct.concept]
    else acc) []
  let cats2 := cats1 ++ extract_business_synonyms text
  let cats3 := CONTEXT_PATTERNS.foldl (fun acc cp =>
    if cp.2.any (fun p => research p text) then acc ++ [cp.1] else acc) cats2
  let cats4 := if formula_info.isEmpty then cats3 else cats3 ++ classify_by_formula formula_info
  let cats5 :=
    if column_types.isEmpty then cats4
    else cats4 ++ (column_types.map Prod.snd).filter
      (fun t => ["percentage", "currency", "ratio"].contains t)
  let cats6 :=
    if ["budget", "actual", "forecast", "target"].any (fun t => strContains text t) then
      cats5 ++ ["planning_metrics"]
    else cats5
  let cats7 :=
    if ["benchmark", "industry", "peer", "competitor"].any (fun t => strContains text t) then
      cats6 ++ ["benchmark_analysis"]
    else cats6
  setOrder cats7

/-- Python `max(d, key=d.get)` over a non-empty insertion-ordered dict, started
from the first entry: later entries replace the best only when strictly
greater, so the first occurrence of the maximum wins. -/
def pyDictMaxFrom (best : String × Nat) (l : List (String × Nat)) : String × Nat :=
  l.foldl (fun b y => if b.2 < y.2 then y else b) best

/-- Score of one intent category in `tagging.detect_financial_intent`:
2 per matching regex pattern, 1 per keyword contained in the query. -/
def intentScore (research : String → String → Bool) (ql : String) (ip : IntentPatterns) : Nat :=
  let s1 := ip.patterns.foldl (fun s p => if research p ql then s + 2 else s) 0
  ip.keywords.foldl (fun s k => if strContains ql k then s + 1 else s) s1

/-- Result of `tagging.detect_financial_intent`.  `all_intents` keeps the
insertion-ordered dict of strictly positive scores; the `matched_patterns`
bookkeeping field of the source is not needed by any claim and is omitted. -/
structure IntentResult where
  primary_intent : String
  confidence : ℚ
  all_intents : List (String × Nat)
deriving DecidableEq

/-- The `intent_scores` dict of `tagging.detect_financial_intent`: one entry
per intent with a strictly positive score, in declaration order. -/
def intentScoresList (research : String → String → Bool) (ql : String) : List (String × Nat) :=
  FINANCIAL_INTENT_PATTERNS.foldl (fun acc ip =>
    let score := intentScore research ql ip
    if 0 < score then acc ++ [(ip.intent, score)] else acc) []

/-- `tagging.detect_financial_intent` (lines 289-340 of `tagging.py`). -/
def detect_financial_intent (research : String → String → Bool) (query : String) : IntentResult :=
  let ql := pyLower query
  match intentScoresList research ql with
  | [] => { primary_intent := "general_query", confidence := 0, all_intents := [] }
  | x :: xs =>
    let primary := pyDictMaxFrom x xs
    { primary_intent := primary.1
      confidence := (primary.2 : ℚ) / (((x :: xs).map Prod.snd).sum : ℚ)
      all_intents := x :: xs }

/-- The candidate list built by the loops of `tagging.expand_financial_synonyms`
before the final `list(set(...))[:5]`: the original query followed by every
synonym substitution that changes the lowercased query. -/
def expandCandidates (query : String) : List String :=
  let ql := pyLower query
  BUSINESS_TERMS.foldl (fun acc ct =>
    ct.primary.foldl (fun acc2 primaryTerm =>
      if strContains ql primaryTerm then
        ct.synonyms.foldl (fun acc3 synonym =>
          let expanded := pyReplace ql primaryTerm synonym
          if expanded ≠ ql then acc3 ++ [expanded] else acc3) acc2
      else acc2) acc) [query]

/-- `tagging.expand_financial_synonyms` (lines 377-401 of `tagging.py`);
`setOrder` models the unspecified enumeration order of `list(set(...))`. -/
def expand_financial_synonyms (setOrder : List String → List String) (query : String) :
    List String :=
  (setOrder (expandCandidates query)).take 5

/-! ### `query_processor.py` -/

/-- `QueryProcessor.conceptual_patterns`. -/
def conceptual_patterns : List String := [
  "\\b(find|show|get|search)\\s+(all\\s+)?(profitability|revenue|cost|growth|efficiency|margin|profit)",
  "\\b(where\\s+are|locate)\\s+(my\\s+)?(.+\\s+)?(metrics|calculations|ratios|analyses)",
  "\\b(profitability|revenue|cost|growth|efficiency)\\s+(metrics|data|calculations)"]

/-- `QueryProcessor.functional_patterns`. -/
def functional_patterns : List String := [
  "\\b(percentage|average|sum|count|conditional|lookup)\\s+(calculations|formulas)",
  "\\b(show|find|get)\\s+(formulas|calculations)\\s+(that|with)",
  "\\b(vlookup|index|match|if|sumif|countif|average|sum)\\s+(formulas|functions)"]

/-- `QueryProcessor.comparative_patterns`. -/
def comparative_patterns : List String := [
  "\\b(budget\\s+vs\\s+actual|actual\\s+vs\\s+budget)",
  "\\b(time\\s+series|monthly|quarterly|yearly|historical)",
  "\\b(compare|comparison|versus|vs|against)",
  "\\b(trend|progression|change\\s+over\\s+time)",
  "\\b(benchmark|industry\\s+standard|peer\\s+analysis)"]

/-- Result dict of `QueryProcessor.categorize_query`. -/
structure Categorization where
  primary_category : String
  confidence : ℚ
  scores : List (String × Nat)
  is_hybrid : Bool
deriving DecidableEq

/-- `QueryProcessor.categorize_query` (lines 37-68 of `query_processor.py`);
`research` models `re.search`. -/
def categorize_query (research : String → String → Bool) (query : String) : Categorization :=
  let ql := pyLower query
  let conceptualScore := conceptual_patterns.countP (fun p => research p ql)
  let functionalScore := functional_patterns.countP (fun p => research p ql)
  let comparativeScore := comparative_patterns.countP (fun p => research p ql)
  let scores := [("conceptual", conceptualScore), ("functional", functionalScore),
                 ("comparative", comparativeScore)]
  let primary := pyDictMaxFrom ("conceptual", conceptualScore)
    [("functional", functionalScore), ("comparative", comparativeScore)]
  let total := conceptualScore + functionalScore + comparativeScore
  { primary_category := primary.1
    confidence := if 0 < total then ((max conceptualScore (max functionalScore comparativeScore) : Nat) : ℚ) / (total : ℚ) else 0
    scores := scores
    is_hybrid := decide (1 < scores.countP (fun p => 0 < p.2)) }

/-- Result dict of the `process_*_query` strategy selectors.  The source key
named `type` is rendered `ptype` (`type` is reserved in Lean). -/
structure ProcessingResult where
  ptype : String
  comparison_types : List String
  search_strategy : String
  filter_categories : List String
deriving DecidableEq

/-- `QueryProcessor.process_comparative_query` (lines 214-231 of
`query_processor.py`). -/
def process_comparative_query (query : String) : ProcessingResult :=
  let ql := pyLower query
  let ct1 := if ["budget", "actual", "forecast", "target"].any (fun t => strContains ql t) then
      ["planning"] else []
  let ct2 := if ["time", "trend", "historical", "series"].any (fun t => strContains ql t) then
      ["temporal"] else []
  let ct3 := if ["benchmark", "industry", "peer", "standard"].any (fun t => strContains ql t) then
      ["benchmark"] else []
  { ptype := "comparative"
    comparison_types := ct1 ++ ct2 ++ ct3
    search_strategy := "contextual_analysis"
    filter_categories := ["planning_metrics", "time_series", "benchmark_analysis"] }

/-! ### `main.query_spreadsheet`: the result aggregation pipeline

The vector store is the external collaborator `search : term → k → hits`;
`json.loads` is modelled by two oracles specialised to the two payload shapes
the upload path stores (a JSON list of category strings and a JSON object
mapping column names to type names), returning `none` where the library would
raise. -/

/-- The indexed document as `query_spreadsheet` reads it back: row identity and
the flattened metadata payloads (a missing metadata key is `none`). -/
structure RowDoc where
  row_index : Nat
  page_content : String
  categories_json : Option String
  column_types_json : Option String
  classification_explanation : Option String
deriving DecidableEq

/-- One scored hit `(doc, score)` returned by the store; lower is better. -/
abbrev SearchHit := RowDoc × ℚ

/-- Lookup in an insertion-ordered Python dict. -/
def dictGet? : List (Nat × α) → Nat → Option α
  | [], _ => none
  | (k, v) :: m, key => if k = key then some v else dictGet? m key

/-- Assignment in an insertion-ordered Python dict: an existing key keeps its
position, a new key is appended. -/
def dictSet : List (Nat × α) → Nat → α → List (Nat × α)
  | [], key, v => [(key, v)]
  | (k, w) :: m, key, v => if k = key then (key, v) :: m else (k, w) :: dictSet m key v

/-- One iteration of the deduplication loop of `query_spreadsheet` (lines
100-105 of `main.py`): keep the entry with the strictly smaller score, so the
first-seen hit survives a tie. -/
def dedupStep (m : List (Nat × SearchHit)) (e : SearchHit) : List (Nat × SearchHit) :=
  match dictGet? m e.1.row_index with
  | none => dictSet m e.1.row_index e
  | some old => if e.2 < old.2 then dictSet m e.1.row_index e else m

/-- The `unique_results` dict after the deduplication loop. -/
def uniqueResults (l : List SearchHit) : List (Nat × SearchHit) := l.foldl dedupStep []

/-- Python `list.sort(key=lambda x: x[1])`: a stable ascending sort by score.
A stable sort for a total preorder key is unique, so this stable insertion
sort agrees with the Timsort of the source. -/
def pyStableSortByScore (l : List SearchHit) : List SearchHit :=
  l.insertionSort (fun a b => a.2 ≤ b.2)

/-- `all_results`: the concatenated hits of `search(term, 2k)` over the first
three search terms (lines 89-98 of `main.py`). -/
def queryAllResults (search : String → Nat → List SearchHit) (terms : List String) (k : Nat) :
    List SearchHit :=
  (terms.take 3).flatMap (fun t => search t (k * 2))

/-- `filtered_results` after deduplication and the stable sort by score. -/
def querySortedResults (search : String → Nat → List SearchHit) (terms : List String) (k : Nat) :
    List SearchHit :=
  pyStableSortByScore ((uniqueResults (queryAllResults search terms k)).map Prod.snd)

/-- Category decoding inside the filter loop (lines 121-126 of `main.py`): a
missing payload defaults to the literal `"[]"`, a falsy (empty) payload skips
parsing, and a parse failure degrades to the empty list. -/
def docCategoriesForFilter (loads : String → Option (List String)) (doc : RowDoc) :
    List String :=
  let cj := doc.categories_json.getD "[]"
  if cj = "" then [] else (loads cj).getD []

/-- The filter predicate `any(cat in doc_categories for cat in filter_categories)`. -/
def hitMatchesFilter (loads : String → Option (List String)) (fc : List String)
    (e : SearchHit) : Bool :=
  fc.any (fun c => (docCategoriesForFilter loads e.1).contains c)

/-- `final_results` of `query_spreadsheet` (lines 100-136 of `main.py`):
deduplicate by row index keeping the best score, sort ascending, apply the
category filter with fallback to the unfiltered list, truncate to `k`. -/
def queryFinalResults (loads : String → Option (List String))
    (search : String → Nat → List SearchHit) (question : String)
    (expanded : List String) (k : Nat) (fc : List String) : List SearchHit :=
  let sorted := querySortedResults search (question :: expanded) k
  let filtered :=
    if fc.isEmpty then sorted
    else
      let categoryFiltered := sorted.filter (hitMatchesFilter loads fc)
      if categoryFiltered.isEmpty then sorted else categoryFiltered
  filtered.take k

/-- The parts of the query-analysis dict read by `utils.explain_relevance`. -/
structure QueryAnalysisBits where
  extracted_concepts : List String
  primary_category : String
deriving DecidableEq

/-- `utils.explain_relevance` (lines 197-213 of `utils.py`). -/
def explain_relevance (qa : QueryAnalysisBits) (doc_categories : List String)
    (doc_content : String) : String :=
  let matching := qa.extracted_concepts.filter (fun c => doc_categories.contains c)
  if !matching.isEmpty then
    "Matches " ++ pyJoin ", " matching ++ " concepts from your " ++ qa.primary_category ++ " query"
  else if !doc_categories.isEmpty then
    "Contains " ++ pyJoin ", " (doc_categories.take 2) ++ " data relevant to your search"
  else
    "Text similarity match with your query (content: "
      ++ String.mk (doc_content.data.take 50) ++ "...)"

/-- Category decoding in the response loop (lines 144-147 of `main.py`): a
missing payload defaults to `"[]"`, a parse failure degrades to the empty
list. -/
def decodeCategoriesJson (loads : String → Option (List String)) (payload : Option String) :
    List String :=
  (loads (payload.getD "[]")).getD []

/-- Column-type decoding in the response loop (lines 149-153 of `main.py`): a
missing payload defaults to `"{}"`, a parse failure degrades to the empty
mapping. -/
def decodeColumnTypesJson (loadsM : String → Option (List (String × String)))
    (payload : Option String) : List (String × String) :=
  (loadsM (payload.getD "\x7b\x7d")).getD []

/-- One formatted entry of the `/query` response (lines 158-166 of `main.py`). -/
structure ResponseItem where
  row_index : Nat
  row_text : String
  score : ℚ
  business_categories : List String
  explanation : String
  column_types : List (String × String)
  relevance_reason : String
deriving DecidableEq

/-- The response entry built for one final hit. -/
def responseItem (loads : String → Option (List String))
    (loadsM : String → Option (List (String × String))) (qa : QueryAnalysisBits)
    (e : SearchHit) : ResponseItem :=
  { row_index := e.1.row_index
    row_text := e.1.page_content
    score := pyRound3 e.2
    business_categories := decodeCategoriesJson loads e.1.categories_json
    explanation := e.1.classification_explanation.getD ""
    column_types := decodeColumnTypesJson loadsM e.1.column_types_json
    relevance_reason := explain_relevance qa (decodeCategoriesJson loads e.1.categories_json)
      e.1.page_content }

/-- The response loop of `query_spreadsheet` (lines 139-166 of `main.py`):
every final hit yields exactly one response entry. -/
def buildResponse (loads : String → Option (List String))
    (loadsM : String → Option (List (String × String))) (qa : QueryAnalysisBits)
    (final : List SearchHit) : List ResponseItem :=
  final.map (responseItem loads loadsM qa)

/-! ### Helper lemmas -/

theorem mem_if_append_right {c : String} {L E : List String} (cond : Bool) (h : c ∈ L) :
    c ∈ (if cond then L ++ E else L) := by
  cases cond
  · simpa using h
  · simp [h]

theorem mem_if_append_left {c : String} {L E : List String} (cond : Bool) (h : c ∈ L) :
    c ∈ (if cond then L else L ++ E) := by
  cases cond
  · simp [h]
  · simpa using h

/-- Every category produced by `classify_by_formula` for a non-empty formula
dict survives into `classify_metric` (membership is invariant under the final
set-based deduplication). -/
theorem mem_classify_metric_of_formula (research : String → String → Bool)
    (setOrder : List String → List String) (hset : IsPySetList setOrder)
    (rowText : String) (fi : FormulaDict) (ct : List (String × String))
    (hfi : fi.isEmpty = false) {c : String} (hc : c ∈ classify_by_formula fi) :
    c ∈ classify_metric research setOrder rowText fi ct := by
  unfold classify_metric
  rw [(hset _).2]
  apply mem_if_append_right
  apply mem_if_append_right
  apply mem_if_append_left
  simp [hfi, hc]

/-! ### Claim C3 -/

/-- C3: for every query string, `process_comparative_query` returns
`filter_categories` equal to the fixed three-element set
`planning_metrics, time_series, benchmark_analysis`, regardless of which
comparison sub-types matched (the returned dict hard-codes the list). -/
theorem comparative_filter_categories_fixed (query : String) :
    (process_comparative_query query).filter_categories
      = ["planning_metrics", "time_series", "benchmark_analysis"] := rfl

/-! ### Claim C6 -/

/-- C6: code-bug evidence.  The numeric column named `count` with the single
non-null value `2` satisfies every hypothesis of the claim (values not all in
the unit interval, no percent hint, no currency term in the name, no literal
dollar sign in the rendered samples, no ratio hint), so the claim requires the
classification `numeric`; the code classifies it as `currency`, because
pandas `str.contains` interprets its argument as a regular expression and the
end-anchor pattern matches every sampled string. -/
theorem numeric_column_dollar_regex_currency :
    detect_column_types [("count", PdCol.numCol [some 2])] = [("count", "currency")] := by
  decide

/-! ### Claim C10 -/

/-- C10: `extract_formula_info` returns a record containing `raw_formula`
mapped to the original value for every string starting with the equals sign,
even when no whitelisted function and no operator is found, and returns the
empty record exactly when the value is not such a string. -/
theorem extract_formula_info_empty_iff (v : PyCellValue) :
    ((∃ s, v = PyCellValue.str s ∧ pyStartsWith s "=") →
        extract_formula_info v ≠ ({} : FormulaDict)
        ∧ ∃ s, v = PyCellValue.str s ∧ (extract_formula_info v).raw_formula = some s)
    ∧ (extract_formula_info v = ({} : FormulaDict)
        ↔ ¬ ∃ s, v = PyCellValue.str s ∧ pyStartsWith s "=") := by
  cases v with
  | nonStr =>
    refine ⟨?_, ?_⟩
    · rintro ⟨s, hs, -⟩; cases hs
    · simp [extract_formula_info]
  | str s =>
    by_cases h : pyStartsWith s "="
    · refine ⟨?_, ?_⟩
      · intro _
        constructor
        · intro heq
          have := congrArg FormulaDict.raw_formula heq
          simp [extract_formula_info, h] at this
        · exact ⟨s, rfl, by simp [extract_formula_info, h]⟩
      · constructor
        · intro heq
          have := congrArg FormulaDict.raw_formula heq
          simp [extract_formula_info, h] at this
        · intro hno
          exact absurd ⟨s, rfl, h⟩ hno
    · refine ⟨?_, ?_⟩
      · rintro ⟨s', hs', hstart⟩
        cases hs'
        exact absurd hstart h
      · simp only [extract_formula_info, h]
        constructor
        · rintro - ⟨s', hs', hstart⟩
          cases hs'
          exact absurd hstart h
        · intro _
          simp [h]

/-- C10 witness: a formula string with no whitelisted function and no operator
still yields a non-empty record carrying the raw formula; a non-string value
yields the empty record. -/
theorem extract_formula_info_empty_iff_witness :
    extract_formula_info (PyCellValue.str "=A1") ≠ ({} : FormulaDict)
    ∧ (extract_formula_info (PyCellValue.str "=A1")).raw_formula = some "=A1"
    ∧ extract_formula_info PyCellValue.nonStr = ({} : FormulaDict) := by
  refine ⟨?_, ?_, ?_⟩
  · exact ((extract_formula_info_empty_iff (.str "=A1")).1 ⟨"=A1", rfl, by decide⟩).1
  · obtain ⟨s, hs, hr⟩ := ((extract_formula_info_empty_iff (.str "=A1")).1
      ⟨"=A1", rfl, by decide⟩).2
    cases hs
    exact hr
  · exact (extract_formula_info_empty_iff .nonStr).2.mpr (by rintro ⟨s, hs, -⟩; cases hs)

/-! ### Claim C7 -/

/-- C7: the formula cell `=SUM(A1:A10)/B1` yields functions exactly `SUM` and
operations exactly `division` (hence neither addition nor multiplication), and
both `classify_by_formula` and `classify_metric` (for any regex oracle, any
admissible set order, any row text and any column types) tag the row with
`formula_aggregation` and `ratio_calculation`. -/
theorem formula_sum_division_scenario :
    (extract_formula_info (PyCellValue.str "=SUM(A1:A10)/B1")).functions = some ["SUM"]
    ∧ (extract_formula_info (PyCellValue.str "=SUM(A1:A10)/B1")).operations = some ["division"]
    ∧ "formula_aggregation" ∈ classify_by_formula
        (extract_formula_info (PyCellValue.str "=SUM(A1:A10)/B1"))
    ∧ "ratio_calculation" ∈ classify_by_formula
        (extract_formula_info (PyCellValue.str "=SUM(A1:A10)/B1"))
    ∧ ∀ (research : String → String → Bool) (setOrder : List String → List String),
        IsPySetList setOrder → ∀ (rowText : String) (columnTypes : List (String × String)),
        "formula_aggregation" ∈ classify_metric research setOrder rowText
            (extract_formula_info (PyCellValue.str "=SUM(A1:A10)/B1")) columnTypes
        ∧ "ratio_calculation" ∈ classify_metric research setOrder rowText
            (extract_formula_info (PyCellValue.str "=SUM(A1:A10)/B1")) columnTypes := by
  refine ⟨by decide, by decide, by decide, by decide, ?_⟩
  intro research setOrder hset rowText columnTypes
  exact ⟨mem_classify_metric_of_formula research setOrder hset rowText _ columnTypes
      (by decide) (by decide),
    mem_classify_metric_of_formula research setOrder hset rowText _ columnTypes
      (by decide) (by decide)⟩

/-! ### Claim C9 -/

/-- C9: a query matching none of the three legacy pattern families is still
categorized, with primary category `conceptual`, confidence `0` and
`is_hybrid` false (the stable argmax of the all-zero score dict picks the
first key). -/
theorem categorize_query_no_match_default (research : String → String → Bool) (query : String)
    (h : ∀ p ∈ conceptual_patterns ++ functional_patterns ++ comparative_patterns,
        research p (pyLower query) = false) :
    categorize_query research query
      = { primary_category := "conceptual", confidence := 0,
          scores := [("conceptual", 0), ("functional", 0), ("comparative", 0)],
          is_hybrid := false } := by
  have hc : conceptual_patterns.countP (fun p => research p (pyLower query)) = 0 := by
    rw [List.countP_eq_zero]
    intro p hp
    simp [h p (by simp [hp])]
  have hf : functional_patterns.countP (fun p => research p (pyLower query)) = 0 := by
    rw [List.countP_eq_zero]
    intro p hp
    simp [h p (by simp [hp])]
  have hm : comparative_patterns.countP (fun p => research p (pyLower query)) = 0 := by
    rw [List.countP_eq_zero]
    intro p hp
    simp [h p (by simp [hp])]
  unfold categorize_query
  simp only [hc, hf, hm]
  decide

/-- Oracle for the regex collaborator under which no pattern matches. -/
def noMatchRegex : String → String → Bool := fun _ _ => false

/-- C9 witness: the default categorization at a concrete query and the
all-false regex oracle. -/
theorem categorize_query_no_match_default_witness :
    (∀ p ∈ conceptual_patterns ++ functional_patterns ++ comparative_patterns,
        noMatchRegex p (pyLower "hello world") = false)
    ∧ categorize_query noMatchRegex "hello world"
        = { primary_category := "conceptual", confidence := 0,
            scores := [("conceptual", 0), ("functional", 0), ("comparative", 0)],
            is_hybrid := false } :=
  ⟨fun _ _ => rfl,
    categorize_query_no_match_default noMatchRegex "hello world" (fun _ _ => rfl)⟩

/-! ### Claim C4 -/

theorem foldl_if_add_two (f : String → Bool) (l : List String) (n : Nat) :
    l.foldl (fun s p => if f p then s + 2 else s) n = n + 2 * l.countP f := by
  induction l generalizing n with
  | nil => simp
  | cons x xs ih =>
    simp only [List.foldl_cons, List.countP_cons, ih]
    by_cases h : f x
    · simp [h]
      omega
    · simp [h]

theorem foldl_if_add_one (f : String → Bool) (l : List String) (n : Nat) :
    l.foldl (fun s p => if f p then s + 1 else s) n = n + l.countP f := by
  induction l generalizing n with
  | nil => simp
  | cons x xs ih =>
    simp only [List.foldl_cons, List.countP_cons, ih]
    by_cases h : f x
    · simp [h]
      omega
    · simp [h]

/-- The loop-accumulated score equals the weighted-count formula of the spec. -/
theorem intentScore_eq (research : String → String → Bool) (ql : String) (ip : IntentPatterns) :
    intentScore research ql ip
      = 2 * ip.patterns.countP (fun p => research p ql)
        + ip.keywords.countP (fun k => strContains ql k) := by
  unfold intentScore
  rw [foldl_if_add_one, foldl_if_add_two]
  have heta : (fun k => strContains ql k) = strContains ql := rfl
  rw [heta]
  omega

theorem foldl_pos_filter (g : IntentPatterns → Nat) (l : List IntentPatterns)
    (acc : List (String × Nat)) :
    l.foldl (fun a ip => if 0 < g ip then a ++ [(ip.intent, g ip)] else a) acc
      = acc ++ (l.map (fun ip => (ip.intent, g ip))).filter (fun x => decide (0 < x.2)) := by
  induction l generalizing acc with
  | nil => simp
  | cons x xs ih =>
    simp only [List.foldl_cons, List.map_cons, List.filter_cons]
    by_cases h : 0 < g x
    · simp [h, ih, List.append_assoc]
    · simp [h, ih]

/-- The `intent_scores` dict holds exactly the intents with positive
weighted-count score, in declaration order. -/
theorem intentScoresList_eq (research : String → String → Bool) (ql : String) :
    intentScoresList research ql
      = (FINANCIAL_INTENT_PATTERNS.map (fun ip =>
          (ip.intent, 2 * ip.patterns.countP (fun p => research p ql)
            + ip.keywords.countP (fun k => strContains ql k)))).filter
          (fun x => decide (0 < x.2)) := by
  unfold intentScoresList
  rw [foldl_pos_filter (g := intentScore research ql)]
  rw [List.nil_append]
  congr 1
  exact List.map_congr_left (fun ip _ => by rw [intentScore_eq])

theorem le_pyDictMaxFrom (b : String × Nat) (l : List (String × Nat)) :
    b.2 ≤ (pyDictMaxFrom b l).2 := by
  induction l generalizing b with
  | nil => exact le_refl _
  | cons y ys ih =>
    show b.2 ≤ (pyDictMaxFrom (if b.2 < y.2 then y else b) ys).2
    by_cases h : b.2 < y.2
    · rw [if_pos h]
      exact le_trans (le_of_lt h) (ih y)
    · rw [if_neg h]
      exact ih b

/-- Characterisation of the Python first-maximum: the dict splits at the
returned entry, everything before it is strictly smaller and everything after
it is at most as large. -/
theorem pyDictMaxFrom_split (b : String × Nat) (l : List (String × Nat)) :
    ∃ pre post, b :: l = pre ++ pyDictMaxFrom b l :: post
      ∧ (∀ x ∈ pre, x.2 < (pyDictMaxFrom b l).2)
      ∧ (∀ x ∈ post, x.2 ≤ (pyDictMaxFrom b l).2) := by
  induction l generalizing b with
  | nil => exact ⟨[], [], rfl, by simp, by simp⟩
  | cons y ys ih =>
    have hstep : pyDictMaxFrom b (y :: ys) = pyDictMaxFrom (if b.2 < y.2 then y else b) ys := rfl
    by_cases h : b.2 < y.2
    · rw [if_pos h] at hstep
      obtain ⟨pre, post, heq, hpre, hpost⟩ := ih y
      refine ⟨b :: pre, post, ?_, ?_, ?_⟩
      · rw [hstep, List.cons_append, ← heq]
      · intro x hx
        rw [hstep]
        rcases List.mem_cons.mp hx with rfl | hx'
        · exact lt_of_lt_of_le h (le_pyDictMaxFrom y ys)
        · exact hpre x hx'
      · intro x hx
        rw [hstep]
        exact hpost x hx
    · rw [if_neg h] at hstep
      obtain ⟨pre, post, heq, hpre, hpost⟩ := ih b
      cases pre with
      | nil =>
        injection heq with h1 h2
        refine ⟨[], y :: post, ?_, by simp, ?_⟩
        · rw [hstep, List.nil_append, ← h1, h2]
        · intro x hx
          rw [hstep]
          rcases List.mem_cons.mp hx with rfl | hx'
          · rw [← h1]
            exact le_of_not_lt h
          · exact hpost x hx'
      | cons p pre' =>
        injection heq with h1 h2
        have hb : b.2 < (pyDictMaxFrom b ys).2 := by
          have hp := hpre p (List.mem_cons_self p pre')
          rw [← h1] at hp
          exact hp
        refine ⟨b :: y :: pre', post, ?_, ?_, ?_⟩
        · rw [hstep, List.cons_append, List.cons_append]
          exact congrArg (fun t => b :: y :: t) h2
        · intro x hx
          rw [hstep]
          rcases List.mem_cons.mp hx with rfl | hx'
          · exact hb
          · rcases List.mem_cons.mp hx' with rfl | hx''
            · exact lt_of_le_of_lt (le_of_not_lt h) hb
            · exact hpre x (List.mem_cons_of_mem p hx'')
        · intro x hx
          rw [hstep]
          exact hpost x hx

/-- C4: intent detection computes, for each intent category, the score
2 times matching patterns plus 1 times matching keyword substrings; the
positive scores are kept in declaration order; the primary intent is the
first highest-scoring category, with confidence equal to its score divided by
the sum of all positive scores; and with no positive score the result is
`general_query` with confidence `0`. -/
theorem detect_financial_intent_spec (research : String → String → Bool) (query : String) :
    (detect_financial_intent research query).all_intents
      = (FINANCIAL_INTENT_PATTERNS.map (fun ip =>
          (ip.intent, 2 * ip.patterns.countP (fun p => research p (pyLower query))
            + ip.keywords.countP (fun k => strContains (pyLower query) k)))).filter
          (fun x => decide (0 < x.2))
    ∧ ((∀ ip ∈ FINANCIAL_INTENT_PATTERNS,
          2 * ip.patterns.countP (fun p => research p (pyLower query))
            + ip.keywords.countP (fun k => strContains (pyLower query) k) = 0) →
        (detect_financial_intent research query).primary_intent = "general_query"
        ∧ (detect_financial_intent research query).confidence = 0)
    ∧ ((detect_financial_intent research query).all_intents ≠ [] →
        ∃ (s : Nat) (pre post : List (String × Nat)),
          (detect_financial_intent research query).all_intents
            = pre ++ ((detect_financial_intent research query).primary_intent, s) :: post
          ∧ (∀ x ∈ pre, x.2 < s) ∧ (∀ x ∈ post, x.2 ≤ s)
          ∧ (detect_financial_intent research query).confidence
            = (s : ℚ)
              / (((detect_financial_intent research query).all_intents.map Prod.snd).sum : ℚ)) := by
  have hval := intentScoresList_eq research (pyLower query)
  rcases hcase : intentScoresList research (pyLower query) with - | ⟨x, xs⟩
  · have hdfi : detect_financial_intent research query
        = { primary_intent := "general_query", confidence := 0, all_intents := [] } := by
      simp only [detect_financial_intent, hcase]
    rw [hcase] at hval
    refine ⟨?_, fun _ => ⟨by simp only [hdfi], by simp only [hdfi]⟩, fun hne => ?_⟩
    · simp only [hdfi]
      exact hval
    · simp only [hdfi] at hne
      exact absurd rfl hne
  · have hdfi : detect_financial_intent research query
        = { primary_intent := (pyDictMaxFrom x xs).1
            confidence := ((pyDictMaxFrom x xs).2 : ℚ) / (((x :: xs).map Prod.snd).sum : ℚ)
            all_intents := x :: xs } := by
      simp only [detect_financial_intent, hcase]
    rw [hcase] at hval
    refine ⟨by simp only [hdfi]; exact hval, ?_, ?_⟩
    · intro hz
      exfalso
      have hx : x ∈ (FINANCIAL_INTENT_PATTERNS.map (fun ip =>
          (ip.intent, 2 * ip.patterns.countP (fun p => research p (pyLower query))
            + ip.keywords.countP (fun k => strContains (pyLower query) k)))).filter
          (fun x => decide (0 < x.2)) := by
        rw [← hval]
        exact List.mem_cons_self x xs
      have hpos := List.of_mem_filter hx
      obtain ⟨ip, hip, hipx⟩ := List.mem_map.mp (List.mem_of_mem_filter hx)
      rw [← hipx] at hpos
      simp [hz ip hip] at hpos
    · intro _
      obtain ⟨pre, post, heq, hpre, hpost⟩ := pyDictMaxFrom_split x xs
      refine ⟨(pyDictMaxFrom x xs).2, pre, post, ?_, hpre, hpost, ?_⟩
      · simp only [hdfi, Prod.mk.eta]
        exact heq
      · simp only [hdfi]

/-- C4 witness: at the all-false regex oracle, the query `budget` scores one
positive intent, so the split characterisation holds at that input. -/
theorem detect_financial_intent_spec_witness :
    (detect_financial_intent noMatchRegex "budget").all_intents ≠ []
    ∧ ∃ (s : Nat) (pre post : List (String × Nat)),
        (detect_financial_intent noMatchRegex "budget").all_intents
          = pre ++ ((detect_financial_intent noMatchRegex "budget").primary_intent, s) :: post
        ∧ (∀ x ∈ pre, x.2 < s) ∧ (∀ x ∈ post, x.2 ≤ s)
        ∧ (detect_financial_intent noMatchRegex "budget").confidence
          = (s : ℚ)
            / (((detect_financial_intent noMatchRegex "budget").all_intents.map Prod.snd).sum : ℚ) :=
  ⟨by decide, (detect_financial_intent_spec noMatchRegex "budget").2.2 (by decide)⟩

/-! ### Claim C5 -/

/-- A concrete admissible enumeration order for a Python set of strings:
deduplication followed by reversal. -/
def revDedupOrder : List String → List String := fun l => l.dedup.reverse

theorem isPySetList_revDedupOrder : IsPySetList revDedupOrder := by
  intro l
  constructor
  · exact List.nodup_reverse.mpr l.nodup_dedup
  · intro x
    simp [revDedupOrder]

theorem foldl_extend {α β : Type} (f : List α → β → List α)
    (hf : ∀ acc b, ∃ t, f acc b = acc ++ t) (l : List β) (acc : List α) :
    ∃ t, l.foldl f acc = acc ++ t := by
  induction l generalizing acc with
  | nil => exact ⟨[], by simp⟩
  | cons x xs ih =>
    obtain ⟨t1, ht1⟩ := hf acc x
    obtain ⟨t2, ht2⟩ := ih (acc ++ t1)
    exact ⟨t1 ++ t2, by rw [List.foldl_cons, ht1, ht2, List.append_assoc]⟩

/-- The candidate list of the expansion loops always starts with the original
query. -/
theorem expandCandidates_head (query : String) :
    ∃ t, expandCandidates query = query :: t := by
  obtain ⟨t, ht⟩ := foldl_extend
    (fun acc ct => ct.primary.foldl (fun acc2 primaryTerm =>
      if strContains (pyLower query) primaryTerm then
        ct.synonyms.foldl (fun acc3 synonym =>
          let expanded := pyReplace (pyLower query) primaryTerm synonym
          if expanded ≠ pyLower query then acc3 ++ [expanded] else acc3) acc2
      else acc2) acc)
    (by
      intro acc ct
      apply foldl_extend
      intro acc2 pt
      by_cases h : strContains (pyLower query) pt = true
      · rw [if_pos h]
        apply foldl_extend
        intro acc3 syn
        by_cases h2 : pyReplace (pyLower query) pt syn ≠ pyLower query
        · rw [if_pos h2]
          exact ⟨[pyReplace (pyLower query) pt syn], rfl⟩
        · rw [if_neg h2]
          exact ⟨[], (List.append_nil _).symm⟩
      · rw [if_neg h]
        exact ⟨[], (List.append_nil _).symm⟩)
    BUSINESS_TERMS [query]
  exact ⟨t, ht⟩

/-- C5 (amended): term expansion returns at most five variants, each drawn
from the candidate set; the original query is always the first candidate
generated; and whenever at most five distinct candidates exist, the original
query is among the returned variants.  (The five returned variants are drawn
from a Python set in unspecified order, so the original is neither guaranteed
to be listed first nor, when more than five distinct candidates exist,
guaranteed to be returned at all.) -/
theorem expand_financial_synonyms_cap (setOrder : List String → List String)
    (hset : IsPySetList setOrder) (query : String) :
    (expand_financial_synonyms setOrder query).length ≤ 5
    ∧ (expandCandidates query).head? = some query
    ∧ (∀ v ∈ expand_financial_synonyms setOrder query, v ∈ expandCandidates query)
    ∧ ((expandCandidates query).dedup.length ≤ 5 →
        query ∈ expand_financial_synonyms setOrder query) := by
  obtain ⟨t, ht⟩ := expandCandidates_head query
  refine ⟨?_, ?_, ?_, ?_⟩
  · unfold expand_financial_synonyms
    rw [List.length_take]
    exact min_le_left _ _
  · rw [ht]
    rfl
  · intro v hv
    exact ((hset _).2 v).mp (List.mem_of_mem_take hv)
  · intro hlen
    have hperm : List.Perm (setOrder (expandCandidates query)) (expandCandidates query).dedup := by
      rw [List.perm_ext_iff_of_nodup (hset _).1 (expandCandidates query).nodup_dedup]
      intro a
      rw [(hset _).2 a, List.mem_dedup]
    have htake : (setOrder (expandCandidates query)).take 5 = setOrder (expandCandidates query) :=
      List.take_of_length_le (by rw [hperm.length_eq]; exact hlen)
    unfold expand_financial_synonyms
    rw [htake]
    exact ((hset _).2 query).mpr (by rw [ht]; exact List.mem_cons_self _ _)

/-- C5 witness: the amended statement instantiated at a concrete admissible
set order and query. -/
theorem expand_financial_synonyms_cap_witness :
    (expand_financial_synonyms revDedupOrder "profit").length ≤ 5
    ∧ (expandCandidates "profit").head? = some "profit"
    ∧ (∀ v ∈ expand_financial_synonyms revDedupOrder "profit", v ∈ expandCandidates "profit")
    ∧ ((expandCandidates "profit").dedup.length ≤ 5 →
        "profit" ∈ expand_financial_synonyms revDedupOrder "profit") :=
  expand_financial_synonyms_cap revDedupOrder isPySetList_revDedupOrder "profit"

/-- C5 counterexample: under an admissible enumeration order of the Python
set, the query `profit` (which generates seven distinct candidate variants)
yields a result that does not list the original query first and does not even
contain it, refuting the claim as stated. -/
theorem expand_financial_synonyms_not_original_first :
    IsPySetList revDedupOrder
    ∧ "profit" ∉ expand_financial_synonyms revDedupOrder "profit"
    ∧ (expand_financial_synonyms revDedupOrder "profit").head? ≠ some "profit" :=
  ⟨isPySetList_revDedupOrder, by decide, by decide⟩

/-! ### Claim C8 -/

/-- C8: each metadata payload degrades independently during result decoding.
Whenever the stored category payload is absent or unparsable, the decoded
categories are the empty list at both decode sites (the filter loop, lines
121-126 of `main.py`, and the response loop, lines 144-147); whenever the
column-type payload is absent or unparsable, the decoded mapping is empty
(lines 149-153); and in every case the hit is still processed: the response
holds exactly one entry per final hit, including one for the degraded hit. -/
theorem malformed_metadata_degrades (loads : String → Option (List String))
    (loadsM : String → Option (List (String × String))) (qa : QueryAnalysisBits)
    (final : List SearchHit) (e : SearchHit)
    (hmem : e ∈ final)
    (hL : loads "[]" = some [])
    (hM : loadsM "\x7b\x7d" = some []) :
    (buildResponse loads loadsM qa final).length = final.length
    ∧ responseItem loads loadsM qa e ∈ buildResponse loads loadsM qa final
    ∧ ((e.1.categories_json = none ∨ ∃ s, e.1.categories_json = some s ∧ loads s = none) →
        (responseItem loads loadsM qa e).business_categories = []
        ∧ docCategoriesForFilter loads e.1 = [])
    ∧ ((e.1.column_types_json = none ∨ ∃ s, e.1.column_types_json = some s ∧ loadsM s = none) →
        (responseItem loads loadsM qa e).column_types = []) := by
  refine ⟨by simp [buildResponse], List.mem_map_of_mem _ hmem, ?_, ?_⟩
  · rintro (h | ⟨s, hs, hn⟩)
    · constructor
      · simp [responseItem, decodeCategoriesJson, h, hL]
      · simp [docCategoriesForFilter, h, hL]
    · constructor
      · simp [responseItem, decodeCategoriesJson, hs, hn]
      · by_cases hse : s = ""
        · simp [docCategoriesForFilter, hs, hse]
        · simp [docCategoriesForFilter, hs, hse, hn]
  · rintro (h | ⟨s, hs, hn⟩)
    · simp [responseItem, decodeColumnTypesJson, h, hM]
    · simp [responseItem, decodeColumnTypesJson, hs, hn]

/-- A `json.loads` oracle that parses only the two default payloads. -/
def loadsFail : String → Option (List String) :=
  fun s => if s = "[]" then some [] else none

/-- A `json.loads` oracle for object payloads that parses only the default. -/
def loadsMFail : String → Option (List (String × String)) :=
  fun s => if s = "\x7b\x7d" then some [] else none

/-- A stored row document whose category payload is not valid JSON and whose
column-type payload is missing. -/
def badRowDoc : RowDoc :=
  { row_index := 0, page_content := "Revenue: 120000", categories_json := some "not json",
    column_types_json := none, classification_explanation := none }

/-- Query-analysis bits with no extracted concepts. -/
def qaNone : QueryAnalysisBits := { extracted_concepts := [], primary_category := "conceptual" }

/-- C8 witness: a hit whose category payload is unparsable and whose
column-type payload is missing still yields its response entry, with both
decode sites degraded to empty values. -/
theorem malformed_metadata_degrades_witness :
    (buildResponse loadsFail loadsMFail qaNone [(badRowDoc, 1)]).length
      = [(badRowDoc, (1 : ℚ))].length
    ∧ responseItem loadsFail loadsMFail qaNone (badRowDoc, 1)
        ∈ buildResponse loadsFail loadsMFail qaNone [(badRowDoc, 1)]
    ∧ ((responseItem loadsFail loadsMFail qaNone (badRowDoc, 1)).business_categories = []
        ∧ docCategoriesForFilter loadsFail badRowDoc = [])
    ∧ (responseItem loadsFail loadsMFail qaNone (badRowDoc, 1)).column_types = [] := by
  obtain ⟨h1, h2, h3, h4⟩ := malformed_metadata_degrades loadsFail loadsMFail qaNone
    [(badRowDoc, 1)] (badRowDoc, 1) (List.mem_cons_self _ _) (by decide) (by decide)
  exact ⟨h1, h2, h3 (Or.inr ⟨"not json", rfl, by decide⟩), h4 (Or.inl rfl)⟩

/-! ### Claims C1 and C2: the deduplication invariant -/

theorem dictGet?_eq_none_iff {α : Type} {m : List (Nat × α)} {k : Nat} :
    dictGet? m k = none ↔ k ∉ m.map Prod.fst := by
  induction m with
  | nil => simp [dictGet?]
  | cons p m ih =>
    obtain ⟨q, v⟩ := p
    by_cases h : q = k
    · subst h
      simp [dictGet?]
    · simp [dictGet?, h, ih, Ne.symm h]

theorem dictGet?_mem {α : Type} {m : List (Nat × α)} {k : Nat} {v : α}
    (h : dictGet? m k = some v) : (k, v) ∈ m := by
  induction m with
  | nil => simp [dictGet?] at h
  | cons p m ih =>
    obtain ⟨q, w⟩ := p
    by_cases hk : q = k
    · subst hk
      simp only [dictGet?, if_true, eq_self_iff_true, Option.some.injEq] at h
      subst h
      exact List.mem_cons_self _ _
    · simp only [dictGet?, if_neg hk] at h
      exact List.mem_cons_of_mem _ (ih h)

theorem dictGet?_eq_of_mem {α : Type} {m : List (Nat × α)} {k : Nat} {v : α}
    (hnd : (m.map Prod.fst).Nodup) (h : (k, v) ∈ m) : dictGet? m k = some v := by
  induction m with
  | nil => cases h
  | cons p m ih =>
    obtain ⟨q, w⟩ := p
    simp only [List.map_cons, List.nodup_cons] at hnd
    rcases List.mem_cons.mp h with heq | hmem
    · rw [Prod.mk.injEq] at heq
      obtain ⟨h1, h2⟩ := heq
      subst h1
      subst h2
      simp [dictGet?]
    · have hk : ¬ q = k := by
        intro hkk
        subst hkk
        exact hnd.1 (List.mem_map_of_mem Prod.fst hmem)
      simp only [dictGet?, if_neg hk]
      exact ih hnd.2 hmem

theorem dictSet_absent {α : Type} {m : List (Nat × α)} {k : Nat} (v : α)
    (h : k ∉ m.map Prod.fst) : dictSet m k v = m ++ [(k, v)] := by
  induction m with
  | nil => rfl
  | cons p m ih =>
    obtain ⟨q, w⟩ := p
    simp only [List.map_cons, List.mem_cons] at h
    push_neg at h
    simp only [dictSet, if_neg (Ne.symm h.1)]
    rw [ih h.2]
    rfl

theorem map_fst_dictSet_present {α : Type} {m : List (Nat × α)} {k : Nat} (v : α)
    (h : k ∈ m.map Prod.fst) : (dictSet m k v).map Prod.fst = m.map Prod.fst := by
  induction m with
  | nil => simp at h
  | cons p m ih =>
    obtain ⟨q, w⟩ := p
    by_cases hk : q = k
    · subst hk
      simp [dictSet]
    · simp only [List.map_cons, List.mem_cons] at h
      rcases h with h1 | h2
      · exact absurd h1.symm hk
      · simp [dictSet, hk, ih h2]

theorem mem_dictSet {α : Type} {m : List (Nat × α)} {k : Nat} {v : α} {p : Nat × α}
    (hnd : (m.map Prod.fst).Nodup) :
    p ∈ dictSet m k v ↔ p = (k, v) ∨ (p ∈ m ∧ p.1 ≠ k) := by
  induction m with
  | nil =>
    simp only [dictSet, List.mem_singleton, List.not_mem_nil, false_and, or_false]
  | cons q m ih =>
    obtain ⟨q1, w⟩ := q
    simp only [List.map_cons, List.nodup_cons] at hnd
    by_cases hk : q1 = k
    · subst hk
      simp only [dictSet, if_pos rfl]
      constructor
      · intro hp
        rcases List.mem_cons.mp hp with h1 | h2
        · exact Or.inl h1
        · refine Or.inr ⟨List.mem_cons_of_mem _ h2, ?_⟩
          intro hpk
          exact hnd.1 (hpk ▸ List.mem_map_of_mem Prod.fst h2)
      · intro hp
        rcases hp with h1 | ⟨h2, h3⟩
        · exact h1 ▸ List.mem_cons_self _ _
        · rcases List.mem_cons.mp h2 with h4 | h5
          · exact absurd (by rw [h4]) h3
          · exact List.mem_cons_of_mem _ h5
    · simp only [dictSet, if_neg hk]
      constructor
      · intro hp
        rcases List.mem_cons.mp hp with h1 | h2
        · exact Or.inr ⟨h1 ▸ List.mem_cons_self _ _, by rw [h1]; exact hk⟩
        · rcases (ih hnd.2).mp h2 with h3 | ⟨h4, h5⟩
          · exact Or.inl h3
          · exact Or.inr ⟨List.mem_cons_of_mem _ h4, h5⟩
      · intro hp
        rcases hp with h1 | ⟨h2, h3⟩
        · exact List.mem_cons_of_mem _ ((ih hnd.2).mpr (Or.inl h1))
        · rcases List.mem_cons.mp h2 with h4 | h5
          · exact h4 ▸ List.mem_cons_self _ _
          · exact List.mem_cons_of_mem _ ((ih hnd.2).mpr (Or.inr ⟨h5, h3⟩))

/-- The survivor for a row index: it occurs in the processed list, every
earlier same-row hit has a strictly greater score (first-seen tie-breaking)
and every later same-row hit has a greater-or-equal score. -/
def KeptFor (l : List SearchHit) (key : Nat) (e : SearchHit) : Prop :=
  e.1.row_index = key
  ∧ ∃ l₁ l₂, l = l₁ ++ e :: l₂
      ∧ (∀ x ∈ l₁, x.1.row_index = key → e.2 < x.2)
      ∧ (∀ x ∈ l₂, x.1.row_index = key → e.2 ≤ x.2)

/-- Loop invariant of the deduplication dict: keys are distinct, every entry
is the current survivor of its row index, and every processed row index has an
entry. -/
def DedupInv (l : List SearchHit) (m : List (Nat × SearchHit)) : Prop :=
  (m.map Prod.fst).Nodup
  ∧ (∀ p ∈ m, KeptFor l p.1 p.2)
  ∧ (∀ x ∈ l, x.1.row_index ∈ m.map Prod.fst)

/-- One iteration of the deduplication loop preserves the invariant. -/
theorem dedupStep_inv {l : List SearchHit} {m : List (Nat × SearchHit)}
    (hinv : DedupInv l m) (x : SearchHit) : DedupInv (l ++ [x]) (dedupStep m x) := by
  obtain ⟨hnd, hkept, hcov⟩ := hinv
  rcases hget : dictGet? m x.1.row_index with - | old
  · -- the row index is new: the entry is appended
    have habs : x.1.row_index ∉ m.map Prod.fst := dictGet?_eq_none_iff.mp hget
    have hstep : dedupStep m x = m ++ [(x.1.row_index, x)] := by
      unfold dedupStep
      rw [hget, dictSet_absent x habs]
    rw [hstep]
    refine ⟨?_, ?_, ?_⟩
    · rw [List.map_append]
      rw [List.nodup_append]
      refine ⟨hnd, List.nodup_singleton _, ?_⟩
      intro a ha hb
      simp only [List.map_cons, List.map_nil, List.mem_singleton] at hb
      subst hb
      exact habs ha
    · intro p hp
      rcases List.mem_append.mp hp with hpm | hpx
      · obtain ⟨hrow, l₁, l₂, heq, hlt, hle⟩ := hkept p hpm
        refine ⟨hrow, l₁, l₂ ++ [x], by rw [heq]; simp, hlt, ?_⟩
        intro y hy hyrow
        rcases List.mem_append.mp hy with hy1 | hy2
        · exact hle y hy1 hyrow
        · rw [List.mem_singleton.mp hy2] at hyrow
          exact absurd (by rw [hyrow]; exact List.mem_map_of_mem Prod.fst hpm) habs
      · rw [List.mem_singleton.mp hpx]
        refine ⟨rfl, l, [], rfl, ?_, by simp⟩
        intro y hy hyrow
        have hcv := hcov y hy
        rw [hyrow] at hcv
        exact absurd hcv habs
    · intro y hy
      rw [List.map_append]
      rcases List.mem_append.mp hy with hy1 | hy2
      · exact List.mem_append_left _ (hcov y hy1)
      · rw [List.mem_singleton.mp hy2]
        exact List.mem_append_right _ (by simp)
  · -- the row index already has a survivor
    have hmemold : (x.1.row_index, old) ∈ m := dictGet?_mem hget
    have hkeys : x.1.row_index ∈ m.map Prod.fst := List.mem_map_of_mem Prod.fst hmemold
    obtain ⟨hrowold, a, b, heqold, hlta, hleb⟩ := hkept _ hmemold
    by_cases hlt : x.2 < old.2
    · -- the new hit strictly improves: replace in place
      have hstep : dedupStep m x = dictSet m x.1.row_index x := by
        unfold dedupStep
        rw [hget]
        exact if_pos hlt
      rw [hstep]
      refine ⟨?_, ?_, ?_⟩
      · rw [map_fst_dictSet_present x hkeys]
        exact hnd
      · intro p hp
        rcases (mem_dictSet hnd).mp hp with hpx | ⟨hpm, hpk⟩
        · rw [hpx]
          refine ⟨rfl, l, [], rfl, ?_, by simp⟩
          intro y hy hyrow
          rw [heqold] at hy
          rcases List.mem_append.mp hy with hy1 | hy2
          · exact lt_trans hlt (hlta y hy1 hyrow)
          · rcases List.mem_cons.mp hy2 with rfl | hy3
            · exact hlt
            · exact lt_of_lt_of_le hlt (hleb y hy3 hyrow)
        · obtain ⟨hrow, l₁, l₂, heq, hlt', hle'⟩ := hkept p hpm
          refine ⟨hrow, l₁, l₂ ++ [x], by rw [heq]; simp, hlt', ?_⟩
          intro y hy hyrow
          rcases List.mem_append.mp hy with hy1 | hy2
          · exact hle' y hy1 hyrow
          · rw [List.mem_singleton.mp hy2] at hyrow
            exact absurd (Eq.symm hyrow) hpk
      · intro y hy
        rw [map_fst_dictSet_present x hkeys]
        rcases List.mem_append.mp hy with hy1 | hy2
        · exact hcov y hy1
        · rw [List.mem_singleton.mp hy2]
          exact hkeys
    · -- the old survivor stays (ties keep the first-seen hit)
      have hge : old.2 ≤ x.2 := le_of_not_lt hlt
      have hstep : dedupStep m x = m := by
        unfold dedupStep
        rw [hget]
        exact if_neg hlt
      rw [hstep]
      refine ⟨hnd, ?_, ?_⟩
      · intro p hp
        obtain ⟨hrow, l₁, l₂, heq, hlt', hle'⟩ := hkept p hp
        refine ⟨hrow, l₁, l₂ ++ [x], by rw [heq]; simp, hlt', ?_⟩
        intro y hy hyrow
        rcases List.mem_append.mp hy with hy1 | hy2
        · exact hle' y hy1 hyrow
        · rw [List.mem_singleton.mp hy2] at hyrow ⊢
          have hp' : (p.1, p.2) ∈ m := by
            rw [Prod.mk.eta]
            exact hp
          have h1 : dictGet? m p.1 = some p.2 := dictGet?_eq_of_mem hnd hp'
          rw [hyrow] at hget
          rw [hget] at h1
          have h2 : old = p.2 := Option.some.inj h1
          rw [← h2]
          exact hge
      · intro y hy
        rcases List.mem_append.mp hy with hy1 | hy2
        · exact hcov y hy1
        · rw [List.mem_singleton.mp hy2]
          exact hkeys

theorem foldl_dedup_inv (rest : List SearchHit) :
    ∀ (l : List SearchHit) (m : List (Nat × SearchHit)), DedupInv l m →
      DedupInv (l ++ rest) (rest.foldl dedupStep m) := by
  induction rest with
  | nil =>
    intro l m h
    simpa using h
  | cons x rest ih =>
    intro l m h
    have h2 := ih (l ++ [x]) (dedupStep m x) (dedupStep_inv h x)
    rw [List.append_assoc] at h2
    simpa using h2

/-- The deduplication dict of `query_spreadsheet` satisfies the invariant. -/
theorem uniqueResults_inv (l : List SearchHit) : DedupInv l (uniqueResults l) := by
  have h := foldl_dedup_inv l [] [] ⟨List.nodup_nil, by simp, by simp⟩
  simpa [uniqueResults] using h

/-- Every value of the deduplication dict is the survivor of its row index. -/
theorem mem_uniqueResults_kept {l : List SearchHit} {e : SearchHit}
    (h : e ∈ (uniqueResults l).map Prod.snd) : KeptFor l e.1.row_index e := by
  obtain ⟨p, hp, hpe⟩ := List.mem_map.mp h
  have hk := (uniqueResults_inv l).2.1 p hp
  rw [hpe] at hk
  obtain ⟨hrow, rest⟩ := hk
  rw [← hrow] at rest
  exact ⟨rfl, rest⟩

/-- The values of the deduplication dict have pairwise distinct row indices. -/
theorem uniqueResults_rows_pairwise (l : List SearchHit) :
    ((uniqueResults l).map Prod.snd).Pairwise
      (fun a b => a.1.row_index ≠ b.1.row_index) := by
  have hnd := (uniqueResults_inv l).1
  have hrows : ∀ p ∈ uniqueResults l, p.2.1.row_index = p.1 :=
    fun p hp => ((uniqueResults_inv l).2.1 p hp).1
  rw [List.pairwise_map]
  have hnd' : (uniqueResults l).Pairwise (fun p q => p.1 ≠ q.1) := by
    rw [List.Nodup, List.pairwise_map] at hnd
    exact hnd
  refine hnd'.imp_of_mem ?_
  intro p q hp hq hne
  rw [hrows p hp, hrows q hq]
  exact hne

/-- The final result list is a sublist of the sorted deduplicated list. -/
theorem queryFinal_sublist_sorted (loads : String → Option (List String))
    (search : String → Nat → List SearchHit) (question : String)
    (expanded : List String) (k : Nat) (fc : List String) :
    (queryFinalResults loads search question expanded k fc).Sublist
      (querySortedResults search (question :: expanded) k) := by
  unfold queryFinalResults
  by_cases h1 : fc.isEmpty
  · simp only [h1, if_true]
    exact List.take_sublist _ _
  · simp only [h1, if_false]
    by_cases h2 : ((querySortedResults search (question :: expanded) k).filter
        (hitMatchesFilter loads fc)).isEmpty
    · simp only [h2, if_true]
      exact List.take_sublist _ _
    · simp only [h2, if_false]
      exact List.Sublist.trans (List.take_sublist _ _) (List.filter_sublist _)

/-- C1: the final result set of `query_spreadsheet` holds at most one hit per
row index; every returned hit appears among the hits of the issued search-term
variants, its score is less than or equal to the score of every hit with the
same row index seen across all issued variants, and it is the first-seen hit
attaining that score (every earlier same-row hit scores strictly greater). -/
theorem query_aggregation_unique_min (loads : String → Option (List String))
    (search : String → Nat → List SearchHit) (question : String)
    (expanded : List String) (k : Nat) (fc : List String) (e : SearchHit)
    (he : e ∈ queryFinalResults loads search question expanded k fc) :
    (queryFinalResults loads search question expanded k fc).Pairwise
        (fun a b => a.1.row_index ≠ b.1.row_index)
    ∧ e ∈ queryAllResults search (question :: expanded) k
    ∧ (∀ x ∈ queryAllResults search (question :: expanded) k,
        x.1.row_index = e.1.row_index → e.2 ≤ x.2)
    ∧ ∃ l₁ l₂, queryAllResults search (question :: expanded) k = l₁ ++ e :: l₂
        ∧ ∀ x ∈ l₁, x.1.row_index = e.1.row_index → e.2 < x.2 := by
  have hsub := queryFinal_sublist_sorted loads search question expanded k fc
  have hsortperm : List.Perm (querySortedResults search (question :: expanded) k)
      ((uniqueResults (queryAllResults search (question :: expanded) k)).map Prod.snd) :=
    List.perm_insertionSort _ _
  have hpair : (queryFinalResults loads search question expanded k fc).Pairwise
      (fun a b => a.1.row_index ≠ b.1.row_index) := by
    refine List.Pairwise.sublist hsub ?_
    refine (hsortperm.pairwise_iff ?_).mpr
      (uniqueResults_rows_pairwise (queryAllResults search (question :: expanded) k))
    intro a b hab
    exact (hab ·.symm)
  have hmemvals : e ∈ (uniqueResults (queryAllResults search (question :: expanded) k)).map
      Prod.snd := hsortperm.mem_iff.mp (hsub.subset he)
  obtain ⟨-, l₁, l₂, heq, hlt, hle⟩ := mem_uniqueResults_kept hmemvals
  refine ⟨hpair, ?_, ?_, l₁, l₂, heq, hlt⟩
  · rw [heq]
    exact List.mem_append_right _ (List.mem_cons_self _ _)
  · intro x hx hxrow
    rw [heq] at hx
    rcases List.mem_append.mp hx with hx1 | hx2
    · exact le_of_lt (hlt x hx1 hxrow)
    · rcases List.mem_cons.mp hx2 with rfl | hx3
      · exact le_refl _
      · exact hle x hx3 hxrow

/-- A stored document on row 0. -/
def docA : RowDoc :=
  { row_index := 0, page_content := "row a", categories_json := none,
    column_types_json := none, classification_explanation := none }

/-- A stored document on row 1. -/
def docB : RowDoc :=
  { row_index := 1, page_content := "row b", categories_json := none,
    column_types_json := none, classification_explanation := none }

/-- A concrete vector-store oracle returning two hits for row 0 (scores 3 and
2) and one hit for row 1 (score 1). -/
def searchW : String → Nat → List SearchHit :=
  fun _ _ => [(docA, 3), (docB, 1), (docA, 2)]

/-- C1 witness: the aggregation invariant at a concrete store oracle; the
survivor of row 0 is the hit with score 2 and the final list has distinct
rows. -/
theorem query_aggregation_unique_min_witness :
    ((docB, (1 : ℚ)) ∈ queryFinalResults loadsFail searchW "q" [] 5 [])
    ∧ ((queryFinalResults loadsFail searchW "q" [] 5 []).Pairwise
        (fun a b => a.1.row_index ≠ b.1.row_index)
      ∧ (docB, (1 : ℚ)) ∈ queryAllResults searchW ["q"] 5
      ∧ (∀ x ∈ queryAllResults searchW ["q"] 5,
          x.1.row_index = (docB, (1 : ℚ)).1.row_index → (docB, (1 : ℚ)).2 ≤ x.2)
      ∧ ∃ l₁ l₂, queryAllResults searchW ["q"] 5 = l₁ ++ (docB, (1 : ℚ)) :: l₂
          ∧ ∀ x ∈ l₁, x.1.row_index = (docB, (1 : ℚ)).1.row_index
              → (docB, (1 : ℚ)).2 < x.2) :=
  ⟨by decide, query_aggregation_unique_min loadsFail searchW "q" [] 5 [] (docB, 1) (by decide)⟩

/-- C2: with a non-empty category filter, if no hit of the ranked deduplicated
list matches the filter, the final list equals the pre-filter ranked list
truncated to `k` — identical to the list returned with no filter at all — and
if some hit matches, only matching hits are retained before truncation. -/
theorem category_filter_fallback (loads : String → Option (List String))
    (search : String → Nat → List SearchHit) (question : String)
    (expanded : List String) (k : Nat) (fc : List String)
    (hfc : fc ≠ []) :
    ((∀ e ∈ querySortedResults search (question :: expanded) k,
        hitMatchesFilter loads fc e = false) →
      queryFinalResults loads search question expanded k fc
          = (querySortedResults search (question :: expanded) k).take k
        ∧ queryFinalResults loads search question expanded k fc
          = queryFinalResults loads search question expanded k [])
    ∧ ((∃ e ∈ querySortedResults search (question :: expanded) k,
        hitMatchesFilter loads fc e = true) →
      queryFinalResults loads search question expanded k fc
        = ((querySortedResults search (question :: expanded) k).filter
            (hitMatchesFilter loads fc)).take k) := by
  have hfc' : fc.isEmpty = false := by
    cases fc with
    | nil => exact absurd rfl hfc
    | cons a l => rfl
  constructor
  · intro hnone
    have hfil : (querySortedResults search (question :: expanded) k).filter
        (hitMatchesFilter loads fc) = [] := by
      rw [List.filter_eq_nil_iff]
      intro a ha
      simp [hnone a ha]
    constructor
    · simp [queryFinalResults, hfc', hfil]
    · simp [queryFinalResults, hfc', hfil]
  · rintro ⟨e, he, hmatch⟩
    have hne : ((querySortedResults search (question :: expanded) k).filter
        (hitMatchesFilter loads fc)).isEmpty = false := by
      rw [List.isEmpty_eq_false]
      intro h0
      rw [List.filter_eq_nil_iff] at h0
      exact h0 e he hmatch
    simp [queryFinalResults, hfc', hne]

/-- C2 witness: with filter category `zzz` matching no stored document, the
final list equals the unfiltered ranked truncation. -/
theorem category_filter_fallback_witness :
    (["zzz"] : List String) ≠ []
    ∧ (queryFinalResults loadsFail searchW "q" [] 5 ["zzz"]
        = (querySortedResults searchW ["q"] 5).take 5
      ∧ queryFinalResults loadsFail searchW "q" [] 5 ["zzz"]
        = queryFinalResults loadsFail searchW "q" [] 5 []) :=
  ⟨by decide,
    (category_filter_fallback loadsFail searchW "q" [] 5 ["zzz"] (by decide)).1 (by decide)⟩

/-- C3 witness: the fixed filter categories at a concrete query. -/
theorem comparative_filter_categories_fixed_witness :
    (process_comparative_query "compare budget vs actual").filter_categories
      = ["planning_metrics", "time_series", "benchmark_analysis"] :=
  comparative_filter_categories_fixed "compare budget vs actual"

/-- C7 witness: the row tags at a concrete regex oracle, set order, row text
and column-type map. -/
theorem formula_sum_division_scenario_witness :
    "formula_aggregation" ∈ classify_metric noMatchRegex revDedupOrder "Gross Margin"
        (extract_formula_info (PyCellValue.str "=SUM(A1:A10)/B1")) []
    ∧ "ratio_calculation" ∈ classify_metric noMatchRegex revDedupOrder "Gross Margin"
        (extract_formula_info (PyCellValue.str "=SUM(A1:A10)/B1")) [] :=
  formula_sum_division_scenario.2.2.2.2 noMatchRegex revDedupOrder
    isPySetList_revDedupOrder "Gross Margin" []
